import Mathlib

/-!
Verification of the `node` binary of the narwhal-td repository
(`src/node/src/main.rs`) against its natural-language specification.

The development shallowly embeds the `run` and `analyze` functions of
`main.rs` together with the two threshold-key subcommand handlers of
`main`.  External crates (`config`, `store`, `primary`, `worker`,
`consensus`) are not part of the source tree; their types are carried as
abstract first-order structures and their fallible operations (file
imports, store creation) are supplied by an oracle `World`.  Side effects
of `run` (channel creation and the three `spawn` entry points) are
recorded as an explicit event trace.
-/

namespace Narwhal

/-- Node key pair (`config::KeyPair`, external crate).  Only the `name`
field (the public key) is consumed by `main.rs` (`keypair.name` is passed
to `Worker::spawn`); the remaining content is abstracted into `secret`. -/
structure KeyPair where
  name : Nat
  secret : Nat
deriving DecidableEq

/-- Committee descriptor (`config::Committee`, external crate), abstract. -/
structure Committee where
  id : Nat
deriving DecidableEq

/-- Modelled from the spec: `config::Parameters` is not under `src/`.
The spec lists the tuning knobs as "batch size/time thresholds, header
timeout, gc_depth, channel capacities"; `main.rs` itself consumes only
`gc_depth`.  The concrete default values below are placeholders: no
theorem depends on them, only on whether `Parameters.default` or an
imported value flows into the spawn calls. -/
structure Parameters where
  gc_depth : Nat
  header_timeout : Nat
  batch_size : Nat
  max_batch_delay : Nat
  channel_capacity : Nat
deriving DecidableEq

/-- `Parameters::default()` of the `config` crate, abstracted (see
`Parameters`). -/
def Parameters.default : Parameters :=
  { gc_depth := 50, header_timeout := 100, batch_size := 1000
    max_batch_delay := 100, channel_capacity := 1000 }

/-- Persistent store handle (`store::Store`, external crate), abstract. -/
structure Store where
  path : String
deriving DecidableEq

/-- Modelled from the spec: the threshold public-key set of
`config::ThresholdKeyPair` (external crate).  Per the CLI contract in
`main.rs` ("use same seed as generate_threshold_keypair"), the group
public-key set is a deterministic function of the threshold and the seed
alone. -/
structure PkSet where
  threshold : Nat
  seed : Nat
deriving DecidableEq

/-- The group public key exported by `generate_threshold_publickey`. -/
structure PublicKey where
  threshold : Nat
  seed : Nat
deriving DecidableEq

/-- `pk_set.public_key()` of the threshold crypto library, abstract. -/
def PkSet.public_key (s : PkSet) : PublicKey :=
  { threshold := s.threshold, seed := s.seed }

/-- Modelled from the spec: `config::ThresholdKeyPair` is not under
`src/`; the spec describes it as a key-share set with explicit
export/import.  `pk_set` is the group public-key set; `share_index` marks
which share this node holds. -/
structure ThresholdKeyPair where
  pk_set : PkSet
  share_index : Nat
deriving DecidableEq

/-- Modelled from the spec: `ThresholdKeyPair::new(threshold, node_index,
seed)` is a seeded deterministic generator; the public-key set depends
only on `(threshold, seed)` while `node_index` selects the secret share.
This follows the CLI contract in `main.rs`, whose help text instructs the
operator to reuse the same seed across `generate_threshold_keypair` and
`generate_threshold_publickey`, and whose publickey handler fixes
`node_index = 0`. -/
def ThresholdKeyPair.new (threshold node_index seed : Nat) : ThresholdKeyPair :=
  { pk_set := { threshold := threshold, seed := seed }, share_index := node_index }

/-- The value computed and exported by the `generate_threshold_publickey`
subcommand handler in `main`: `ThresholdKeyPair::new(threshold, 0,
seed).pk_set.public_key()`. -/
def generateThresholdPublickeyCmd (threshold seed : Nat) : PublicKey :=
  (ThresholdKeyPair.new threshold 0 seed).pk_set.public_key

/-- The key share computed and exported by the `generate_threshold_keypair`
subcommand handler in `main`: `ThresholdKeyPair::new(threshold, node_index,
seed)`. -/
def generateThresholdKeypairCmd (threshold node_index seed : Nat) : ThresholdKeyPair :=
  ThresholdKeyPair.new threshold node_index seed

/-- Modelled from the spec: `primary::Certificate` is not under `src/`.
Fields follow the spec data model (a certificate is a certified header
carrying its author, round, and the digests of its round r-1 parents);
`digest` abstracts the content hash of the header. -/
structure Certificate where
  round : Nat
  author : Nat
  digest : Nat
  parents : List Nat
deriving DecidableEq

/-- The contextual error messages `main.rs` attaches with
`anyhow::Context`.  Each constructor stands for the literal message
string of the source:
`failedLoadKeypair` = "Failed to load the node's keypair",
`failedLoadCommittee` = "Failed to load the committee information",
`failedLoadParameters` = "Failed to load the node's parameters",
`failedCreateStore` = "Failed to create a store",
`workerIdNotInteger` = "The worker id must be a positive integer",
`failedLoadThresholdKeypair` = "Failed to load the node's threshold keypair". -/
inductive ErrCtx
  | failedLoadKeypair
  | failedLoadCommittee
  | failedLoadParameters
  | failedCreateStore
  | workerIdNotInteger
  | failedLoadThresholdKeypair
deriving DecidableEq

/-- `anyhow`'s `.context(msg)`: wraps an underlying error (abstracted as a
`Nat` code) with the contextual message. -/
def withContext {α : Type} (c : ErrCtx) : Except Nat α → Except (ErrCtx × Nat) α
  | .ok a => .ok a
  | .error e => .error (c, e)

/-- The `run` subcommand's parsed CLI arguments (`clap` matches):
`--keypair`, `--committee`, optional `--parameters`, `--store`, and the
required mode subcommand. -/
inductive Mode
  | primary
  | worker (idArg : String) (thresholdFile : String)
deriving DecidableEq

structure RunArgs where
  keyFile : String
  committeeFile : String
  parametersFile : Option String
  storePath : String
  mode : Mode
deriving DecidableEq

/-- Oracle for the external fallible operations `run` performs: file
imports of the `config` crate, `Store::new`, and `str::parse::<WorkerId>`.
Underlying errors are abstract `Nat` codes. -/
structure World where
  importKeyPair : String → Except Nat KeyPair
  importCommittee : String → Except Nat Committee
  importParameters : String → Except Nat Parameters
  newStore : String → Except Nat Store
  parseWorkerId : String → Except Nat Nat
  importThresholdKeyPair : String → Except Nat ThresholdKeyPair

/-- The default channel capacity (`pub const CHANNEL_CAPACITY: usize =
1_000;` in `main.rs`). -/
def CHANNEL_CAPACITY : Nat := 1000

/-- Side effects of `run`, in program order.  Channels are numbered by
allocation order: channel 0 is `(tx_output, rx_output)`, channel 1 is
`(tx_new_certificates, rx_new_certificates)`, channel 2 is `(tx_feedback,
rx_feedback)`.  A spawn event records the arguments of the corresponding
`spawn` call; a channel argument records which channel the passed sender
(`tx...`) or receiver (`rx...`) endpoint belongs to.  `Worker::spawn`
receives no channel endpoint, exactly as in the source. -/
inductive Event
  | createChannel (chan : Nat) (capacity : Nat)
  | primarySpawn (keypair : KeyPair) (committee : Committee) (parameters : Parameters)
      (store : Store) (txConsensus : Nat) (rxConsensus : Nat)
  | consensusSpawn (committee : Committee) (gcDepth : Nat)
      (rxPrimary : Nat) (txPrimary : Nat) (txOutput : Nat)
  | workerSpawn (name : Nat) (id : Nat) (thresholdKeypair : ThresholdKeyPair)
      (committee : Committee) (parameters : Parameters) (store : Store)
deriving DecidableEq

/-- Who holds the sender endpoint `tx_output` of channel 0 when `run`
suspends in `analyze(rx_output).await`.  In primary mode it was moved
into `Consensus::spawn`; in worker mode it is still owned by `run`'s own
scope (Rust drops it only when `run` returns, which never happens). -/
inductive TxOutputHolder
  | consensusTask
  | runLocal
deriving DecidableEq

/-- The state of `run` at the point where it enters its non-returning
tail `analyze(rx_output).await; unreachable!()`. -/
structure PostSpawn where
  events : List Event
  txOutputHolder : TxOutputHolder
  analyzedChannel : Nat
deriving DecidableEq

/-- Result of the straight-line part of `run`: an early `Err` return via
`?`, or entry into the non-returning tail.  The `ok` constructor is the
`Ok(())` value of the Rust signature `Result<()>`; the theorems show
`run` never produces it. -/
inductive RunResult
  | ok
  | error (e : ErrCtx × Nat)
  | neverReturns (post : PostSpawn)
deriving DecidableEq

/-- The `let parameters = match parameters_file { ... }` statement of
`run`: import from the file when `--parameters` was supplied (with the
contextual error), otherwise `Parameters::default()`. -/
def loadParameters (w : World) : Option String → Except (ErrCtx × Nat) Parameters
  | some filename => withContext .failedLoadParameters (w.importParameters filename)
  | none => .ok Parameters.default

/-- The `match matches.subcommand()` statement of `run` (after the four
bootstrap steps succeeded, the output channel — channel 0 — has been
created, and the subcommand has been parsed into `Mode`): spawn the
primary and the consensus core, or parse the worker id, import the
threshold keypair and spawn the worker.  The resulting event trace also
records the creation of channel 0, which in the source happens just
before this match. -/
def runMode (w : World) (keypair : KeyPair) (committee : Committee)
    (parameters : Parameters) (store : Store) : Mode → RunResult
  | .primary =>
      .neverReturns
        { events :=
            [.createChannel 0 CHANNEL_CAPACITY,
             .createChannel 1 CHANNEL_CAPACITY,
             .createChannel 2 CHANNEL_CAPACITY,
             .primarySpawn keypair committee parameters store 1 2,
             .consensusSpawn committee parameters.gc_depth 1 2 0],
          txOutputHolder := .consensusTask,
          analyzedChannel := 0 }
  | .worker idArg thresholdFile =>
      match withContext .workerIdNotInteger (w.parseWorkerId idArg) with
      | .error e => .error e
      | .ok id =>
        match withContext .failedLoadThresholdKeypair
                (w.importThresholdKeyPair thresholdFile) with
        | .error e => .error e
        | .ok tkp =>
          .neverReturns
            { events :=
                [.createChannel 0 CHANNEL_CAPACITY,
                 .workerSpawn keypair.name id tkp committee parameters store],
              txOutputHolder := .runLocal,
              analyzedChannel := 0 }

/-- Shallow embedding of `async fn run` of `main.rs`.  Straight-line
control flow, the `?` early returns, channel creations and the spawn
calls are mirrored statement by statement; see `Event` for the channel
numbering and `runMode` for the subcommand match. -/
def run (args : RunArgs) (w : World) : RunResult :=
  match withContext .failedLoadKeypair (w.importKeyPair args.keyFile) with
  | .error e => .error e
  | .ok keypair =>
    match withContext .failedLoadCommittee (w.importCommittee args.committeeFile) with
    | .error e => .error e
    | .ok committee =>
      match loadParameters w args.parametersFile with
      | .error e => .error e
      | .ok parameters =>
        match withContext .failedCreateStore (w.newStore args.storePath) with
        | .error e => .error e
        | .ok store => runMode w keypair committee parameters store args.mode

/-- Event trace of a `run` result (empty when `run` returned early). -/
def runEvents : RunResult → List Event
  | .neverReturns post => post.events
  | _ => []

/-- Observable effects the body of `analyze`'s loop could perform on a
received certificate. -/
inductive Action
  | store (c : Certificate)
  | forward (c : Certificate)
  | modify (c : Certificate)
deriving DecidableEq

/-- The body of `analyze`'s `while let` loop.  In the source the body is
empty (only the comment "NOTE: Here goes the application logic."), so no
action is performed on the received certificate. -/
def analyzeBody (_certificate : Certificate) : List Action := []

/-- Whether `analyze` returned or is still suspended in `recv().await`. -/
inductive AnalyzeOutcome
  | returned
  | blocked
deriving DecidableEq

structure AnalyzeRun where
  outcome : AnalyzeOutcome
  actions : List Action
deriving DecidableEq

/-- Shallow embedding of `async fn analyze`.  `received` is the sequence
of certificates the channel delivers; `closed` tells whether, after them,
every sender endpoint has been dropped so that `recv()` yields `None`.
The loop consumes each certificate with `analyzeBody` and either returns
(on `None`) or stays suspended forever waiting for the next message. -/
def analyze : List Certificate → Bool → AnalyzeRun
  | [], true => { outcome := .returned, actions := [] }
  | [], false => { outcome := .blocked, actions := [] }
  | c :: rest, closed =>
      let r := analyze rest closed
      { outcome := r.outcome, actions := analyzeBody c ++ r.actions }

/-- Observable fate of a `run` invocation, tail included. -/
inductive Behavior
  | returnedOk
  | returnedErr (e : ErrCtx × Nat)
  | blockForever
  | panicked
deriving DecidableEq

/-- Fate of the tail `analyze(rx_output).await; unreachable!()`.
`analyze` returns iff every `tx_output` sender is dropped.  When `run`
itself still holds `tx_output` (worker mode) the channel can never close
while `run` is suspended inside `analyze`, so `run` blocks forever.  When
`tx_output` was moved into the consensus task, closing depends on that
external task (`externCloses`); if it ever closes, `analyze` returns and
the trailing `unreachable!()` panics. -/
def tailOutcome (post : PostSpawn) (externCloses : Bool) : Behavior :=
  match post.txOutputHolder with
  | .runLocal => .blockForever
  | .consensusTask => if externCloses then .panicked else .blockForever

/-- Complete observable behavior of `run`: early return values, or the
fate of the non-returning tail. -/
def runBehavior (args : RunArgs) (w : World) (externCloses : Bool) : Behavior :=
  match run args w with
  | .ok => .returnedOk
  | .error e => .returnedErr e
  | .neverReturns post => tailOutcome post externCloses

/-- Does a `run` event pass the given parameters (or their `gc_depth`) to
a spawned task?  `createChannel` involves no parameters. -/
def eventUsesParams (pm : Parameters) : Event → Prop
  | .primarySpawn _ _ p _ _ _ => p = pm
  | .workerSpawn _ _ _ _ p _ => p = pm
  | .consensusSpawn _ gc _ _ _ => gc = pm.gc_depth
  | .createChannel _ _ => True

/-- Does an event mention (create, or hand an endpoint of) channel `ch`?
`workerSpawn` mentions no channel: `Worker::spawn` takes no channel
endpoint in the source. -/
def eventMentionsChannel (ch : Nat) : Event → Prop
  | .createChannel c _ => c = ch
  | .primarySpawn _ _ _ _ tx rx => tx = ch ∨ rx = ch
  | .consensusSpawn _ _ rxp txp txo => rxp = ch ∨ txp = ch ∨ txo = ch
  | .workerSpawn _ _ _ _ _ _ => False

/-- The `PostSpawn` state reached by `run` in primary mode. -/
def primaryPost (kp : KeyPair) (cm : Committee) (pm : Parameters) (st : Store) : PostSpawn :=
  { events :=
      [.createChannel 0 CHANNEL_CAPACITY,
       .createChannel 1 CHANNEL_CAPACITY,
       .createChannel 2 CHANNEL_CAPACITY,
       .primarySpawn kp cm pm st 1 2,
       .consensusSpawn cm pm.gc_depth 1 2 0],
    txOutputHolder := .consensusTask,
    analyzedChannel := 0 }

/-- The `PostSpawn` state reached by `run` in worker mode. -/
def workerPost (kp : KeyPair) (wid : Nat) (tkp : ThresholdKeyPair)
    (cm : Committee) (pm : Parameters) (st : Store) : PostSpawn :=
  { events :=
      [.createChannel 0 CHANNEL_CAPACITY,
       .workerSpawn kp.name wid tkp cm pm st],
    txOutputHolder := .runLocal,
    analyzedChannel := 0 }

lemma withContext_eq_ok {α : Type} (c : ErrCtx) (x : Except Nat α) (a : α) :
    withContext c x = .ok a ↔ x = .ok a := by
  cases x <;> simp [withContext]

lemma run_eq_primary (args : RunArgs) (w : World)
    (kp : KeyPair) (cm : Committee) (pm : Parameters) (st : Store)
    (hm : args.mode = Mode.primary)
    (hk : w.importKeyPair args.keyFile = .ok kp)
    (hc : w.importCommittee args.committeeFile = .ok cm)
    (hp : loadParameters w args.parametersFile = .ok pm)
    (hs : w.newStore args.storePath = .ok st) :
    run args w = .neverReturns (primaryPost kp cm pm st) := by
  unfold run
  rw [hk, hc, hp, hs, hm]
  rfl

lemma runMode_worker_ok (w : World) (kp : KeyPair) (cm : Committee)
    (pm : Parameters) (st : Store) (idArg tf : String)
    (wid : Nat) (tkp : ThresholdKeyPair)
    (hid : w.parseWorkerId idArg = .ok wid)
    (ht : w.importThresholdKeyPair tf = .ok tkp) :
    runMode w kp cm pm st (Mode.worker idArg tf) =
      .neverReturns (workerPost kp wid tkp cm pm st) := by
  simp only [runMode]
  rw [hid, ht]
  rfl

lemma runMode_worker_badId (w : World) (kp : KeyPair) (cm : Committee)
    (pm : Parameters) (st : Store) (idArg tf : String) (eid : Nat)
    (hid : w.parseWorkerId idArg = .error eid) :
    runMode w kp cm pm st (Mode.worker idArg tf) =
      .error (.workerIdNotInteger, eid) := by
  simp only [runMode]
  rw [hid]
  rfl

lemma runMode_worker_badTkp (w : World) (kp : KeyPair) (cm : Committee)
    (pm : Parameters) (st : Store) (idArg tf : String)
    (wid : Nat) (et : Nat)
    (hid : w.parseWorkerId idArg = .ok wid)
    (ht : w.importThresholdKeyPair tf = .error et) :
    runMode w kp cm pm st (Mode.worker idArg tf) =
      .error (.failedLoadThresholdKeypair, et) := by
  simp only [runMode]
  rw [hid, ht]
  rfl

lemma run_eq_worker (args : RunArgs) (w : World) (idArg tf : String)
    (kp : KeyPair) (cm : Committee) (pm : Parameters) (st : Store)
    (wid : Nat) (tkp : ThresholdKeyPair)
    (hm : args.mode = Mode.worker idArg tf)
    (hk : w.importKeyPair args.keyFile = .ok kp)
    (hc : w.importCommittee args.committeeFile = .ok cm)
    (hp : loadParameters w args.parametersFile = .ok pm)
    (hs : w.newStore args.storePath = .ok st)
    (hid : w.parseWorkerId idArg = .ok wid)
    (ht : w.importThresholdKeyPair tf = .ok tkp) :
    run args w = .neverReturns (workerPost kp wid tkp cm pm st) := by
  unfold run
  rw [hk, hc, hp, hs, hm]
  exact runMode_worker_ok w kp cm pm st idArg tf wid tkp hid ht

/-- Exhaustive description of `run`: either an early error return, or one
of the two spawn paths with all imports successful. -/
lemma run_total (args : RunArgs) (w : World) :
    (∃ e, run args w = RunResult.error e) ∨
    (∃ kp cm pm st,
       w.importKeyPair args.keyFile = .ok kp ∧
       w.importCommittee args.committeeFile = .ok cm ∧
       loadParameters w args.parametersFile = .ok pm ∧
       w.newStore args.storePath = .ok st ∧
       ((args.mode = Mode.primary ∧
           run args w = .neverReturns (primaryPost kp cm pm st)) ∨
        (∃ idArg tf wid tkp,
           args.mode = Mode.worker idArg tf ∧
           w.parseWorkerId idArg = .ok wid ∧
           w.importThresholdKeyPair tf = .ok tkp ∧
           run args w = .neverReturns (workerPost kp wid tkp cm pm st)))) := by
  rcases hk : w.importKeyPair args.keyFile with ek | kp
  · exact .inl ⟨(.failedLoadKeypair, ek), by unfold run; rw [hk]; rfl⟩
  rcases hc : w.importCommittee args.committeeFile with ec | cm
  · exact .inl ⟨(.failedLoadCommittee, ec), by unfold run; rw [hk, hc]; rfl⟩
  rcases hp : loadParameters w args.parametersFile with ep | pm
  · exact .inl ⟨ep, by unfold run; rw [hk, hc, hp]; rfl⟩
  rcases hs : w.newStore args.storePath with es | st
  · exact .inl ⟨(.failedCreateStore, es), by unfold run; rw [hk, hc, hp, hs]; rfl⟩
  rcases hm : args.mode with _ | ⟨idArg, tf⟩
  · exact .inr ⟨kp, cm, pm, st, rfl, rfl, rfl, rfl,
      .inl ⟨rfl, run_eq_primary args w kp cm pm st hm hk hc hp hs⟩⟩
  rcases hid : w.parseWorkerId idArg with eid | wid
  · refine .inl ⟨(.workerIdNotInteger, eid), ?_⟩
    unfold run; rw [hk, hc, hp, hs, hm]
    exact runMode_worker_badId w kp cm pm st idArg tf eid hid
  rcases ht : w.importThresholdKeyPair tf with et | tkp
  · refine .inl ⟨(.failedLoadThresholdKeypair, et), ?_⟩
    unfold run; rw [hk, hc, hp, hs, hm]
    exact runMode_worker_badTkp w kp cm pm st idArg tf wid et hid ht
  exact .inr ⟨kp, cm, pm, st, rfl, rfl, rfl, rfl,
    .inr ⟨idArg, tf, wid, tkp, rfl, hid, ht,
      run_eq_worker args w idArg tf kp cm pm st wid tkp hm hk hc hp hs hid ht⟩⟩

/-! Concrete fixtures used to instantiate the theorems on closed inputs. -/

def sampleKeyPair : KeyPair := { name := 7, secret := 8 }

def sampleCommittee : Committee := { id := 3 }

def sampleParameters : Parameters :=
  { gc_depth := 9, header_timeout := 1, batch_size := 2
    max_batch_delay := 3, channel_capacity := 7 }

def sampleStore : Store := { path := "s" }

def sampleTkp : ThresholdKeyPair :=
  { pk_set := { threshold := 2, seed := 5 }, share_index := 1 }

def goodWorld : World :=
  { importKeyPair := fun _ => .ok sampleKeyPair
    importCommittee := fun _ => .ok sampleCommittee
    importParameters := fun _ => .ok sampleParameters
    newStore := fun _ => .ok sampleStore
    parseWorkerId := fun _ => .ok 4
    importThresholdKeyPair := fun _ => .ok sampleTkp }

def badKeyWorld : World :=
  { goodWorld with importKeyPair := fun _ => .error 42 }

def primaryArgs : RunArgs :=
  { keyFile := "k", committeeFile := "c", parametersFile := some "p"
    storePath := "s", mode := .primary }

def primaryArgsNoParams : RunArgs := { primaryArgs with parametersFile := none }

def workerArgs : RunArgs := { primaryArgs with mode := .worker "4" "t" }

lemma runEvents_usesParams (args : RunArgs) (w : World) (pm : Parameters)
    (hp : loadParameters w args.parametersFile = .ok pm) :
    ∀ e ∈ runEvents (run args w), eventUsesParams pm e := by
  intro e he
  rcases run_total args w with ⟨er, hr⟩ | ⟨kp, cm, pm2, st, hk, hc, hp2, hs, hcase⟩
  · rw [hr] at he
    simp [runEvents] at he
  · have hpm : pm2 = pm := Except.ok.inj (hp2.symm.trans hp)
    subst hpm
    rcases hcase with ⟨_, hr⟩ | ⟨idArg, tf, wid, tkp, _, _, _, hr⟩
    · rw [hr] at he
      simp [runEvents, primaryPost] at he
      rcases he with rfl | rfl | rfl | rfl | rfl <;> simp [eventUsesParams]
    · rw [hr] at he
      simp [runEvents, workerPost] at he
      rcases he with rfl | rfl <;> simp [eventUsesParams]

/-- Claim C1: with the `run ... primary` subcommand, the bootstrap steps
succeeding, `run` wires the components exactly as the entry contract
states.  Channel 1 is the certificate channel (sender `tx_new_certificates`
to `Primary::spawn` as the outgoing-certificate endpoint, receiver
`rx_new_certificates` to `Consensus::spawn` as the incoming-certificate
endpoint); channel 2 is the feedback channel (sender `tx_feedback` to
`Consensus::spawn`, receiver `rx_feedback` to `Primary::spawn`);
`Consensus::spawn` additionally receives the committee,
`parameters.gc_depth` and the sender of the committed-output channel
(channel 0); after the spawn calls the only remaining step of `run` is
draining channel 0 (`analyzedChannel = 0`), whose sender now lives in the
consensus task. -/
theorem run_primary_wiring (args : RunArgs) (w : World)
    (kp : KeyPair) (cm : Committee) (pm : Parameters) (st : Store)
    (hm : args.mode = Mode.primary)
    (hk : w.importKeyPair args.keyFile = .ok kp)
    (hc : w.importCommittee args.committeeFile = .ok cm)
    (hp : loadParameters w args.parametersFile = .ok pm)
    (hs : w.newStore args.storePath = .ok st) :
    run args w = .neverReturns
      { events :=
          [.createChannel 0 CHANNEL_CAPACITY,
           .createChannel 1 CHANNEL_CAPACITY,
           .createChannel 2 CHANNEL_CAPACITY,
           .primarySpawn kp cm pm st 1 2,
           .consensusSpawn cm pm.gc_depth 1 2 0],
        txOutputHolder := .consensusTask,
        analyzedChannel := 0 } :=
  run_eq_primary args w kp cm pm st hm hk hc hp hs

theorem run_primary_wiring_witness :
    primaryArgs.mode = Mode.primary ∧
    goodWorld.importKeyPair primaryArgs.keyFile = Except.ok sampleKeyPair ∧
    goodWorld.importCommittee primaryArgs.committeeFile = Except.ok sampleCommittee ∧
    loadParameters goodWorld primaryArgs.parametersFile = Except.ok sampleParameters ∧
    goodWorld.newStore primaryArgs.storePath = Except.ok sampleStore ∧
    run primaryArgs goodWorld = .neverReturns
      { events :=
          [.createChannel 0 CHANNEL_CAPACITY,
           .createChannel 1 CHANNEL_CAPACITY,
           .createChannel 2 CHANNEL_CAPACITY,
           .primarySpawn sampleKeyPair sampleCommittee sampleParameters sampleStore 1 2,
           .consensusSpawn sampleCommittee sampleParameters.gc_depth 1 2 0],
        txOutputHolder := .consensusTask,
        analyzedChannel := 0 } :=
  ⟨rfl, rfl, rfl, rfl, rfl,
    run_primary_wiring primaryArgs goodWorld sampleKeyPair sampleCommittee
      sampleParameters sampleStore rfl rfl rfl rfl rfl⟩

/-- Claim C2: every bootstrap failure of `run` (keypair import, committee
import, import of a supplied parameters file, store creation) produces an
`Err` carrying the corresponding contextual message, and it happens
before any spawn: the event trace of such a run is empty, so
`Primary::spawn`, `Consensus::spawn` and `Worker::spawn` are never
invoked. -/
theorem run_bootstrap_errors (args : RunArgs) (w : World) :
    (∀ e, w.importKeyPair args.keyFile = .error e →
       run args w = .error (ErrCtx.failedLoadKeypair, e) ∧
       runEvents (run args w) = []) ∧
    (∀ kp e, w.importKeyPair args.keyFile = .ok kp →
       w.importCommittee args.committeeFile = .error e →
       run args w = .error (ErrCtx.failedLoadCommittee, e) ∧
       runEvents (run args w) = []) ∧
    (∀ kp cm f e, w.importKeyPair args.keyFile = .ok kp →
       w.importCommittee args.committeeFile = .ok cm →
       args.parametersFile = some f →
       w.importParameters f = .error e →
       run args w = .error (ErrCtx.failedLoadParameters, e) ∧
       runEvents (run args w) = []) ∧
    (∀ kp cm pm e, w.importKeyPair args.keyFile = .ok kp →
       w.importCommittee args.committeeFile = .ok cm →
       loadParameters w args.parametersFile = .ok pm →
       w.newStore args.storePath = .error e →
       run args w = .error (ErrCtx.failedCreateStore, e) ∧
       runEvents (run args w) = []) := by
  refine ⟨?_, ?_, ?_, ?_⟩
  · intro e hk
    have hr : run args w = .error (ErrCtx.failedLoadKeypair, e) := by
      unfold run; rw [hk]; rfl
    exact ⟨hr, by rw [hr]; rfl⟩
  · intro kp e hk hc
    have hr : run args w = .error (ErrCtx.failedLoadCommittee, e) := by
      unfold run; rw [hk, hc]; rfl
    exact ⟨hr, by rw [hr]; rfl⟩
  · intro kp cm f e hk hc hf him
    have hp : loadParameters w args.parametersFile =
        .error (ErrCtx.failedLoadParameters, e) := by
      rw [hf]; simp [loadParameters, withContext, him]
    have hr : run args w = .error (ErrCtx.failedLoadParameters, e) := by
      unfold run; rw [hk, hc, hp]; rfl
    exact ⟨hr, by rw [hr]; rfl⟩
  · intro kp cm pm e hk hc hp hs
    have hr : run args w = .error (ErrCtx.failedCreateStore, e) := by
      unfold run; rw [hk, hc, hp, hs]; rfl
    exact ⟨hr, by rw [hr]; rfl⟩

theorem run_bootstrap_errors_witness :
    badKeyWorld.importKeyPair primaryArgs.keyFile = Except.error 42 ∧
    run primaryArgs badKeyWorld = .error (ErrCtx.failedLoadKeypair, 42) ∧
    runEvents (run primaryArgs badKeyWorld) = [] :=
  ⟨rfl, (run_bootstrap_errors primaryArgs badKeyWorld).1 42 rfl⟩

/-- Claim C3: the reference downstream consumer is a no-op drain: for
every sequence of certificates delivered on the committed-output channel
the loop body of `analyze` performs no action (no store, forward or
modification), and `analyze` returns exactly when the channel yields
`None`, i.e. when every sender endpoint has been dropped (`closed`);
otherwise it stays suspended waiting for the next certificate. -/
theorem analyze_noop_drain (received : List Certificate) (closed : Bool) :
    (analyze received closed).actions = [] ∧
    ((analyze received closed).outcome = AnalyzeOutcome.returned ↔ closed = true) := by
  induction received with
  | nil => cases closed <;> simp [analyze]
  | cons c rest ih => cases closed <;> simp_all [analyze, analyzeBody]

/-- Claim C4: the parameters file is optional.  With no `--parameters`
argument `run` loads `Parameters::default()` and every spawn receives the
default parameters; with a file that imports successfully every spawn
receives the imported parameters; a malformed parameters file is a fatal
contextual error raised before any task starts (empty event trace). -/
theorem run_parameters_optional (args : RunArgs) (w : World) :
    (args.parametersFile = none →
       loadParameters w args.parametersFile = .ok Parameters.default ∧
       ∀ e ∈ runEvents (run args w), eventUsesParams Parameters.default e) ∧
    (∀ f pm, args.parametersFile = some f → w.importParameters f = .ok pm →
       ∀ e ∈ runEvents (run args w), eventUsesParams pm e) ∧
    (∀ f e kp cm, w.importKeyPair args.keyFile = .ok kp →
       w.importCommittee args.committeeFile = .ok cm →
       args.parametersFile = some f → w.importParameters f = .error e →
       run args w = .error (ErrCtx.failedLoadParameters, e) ∧
       runEvents (run args w) = []) := by
  refine ⟨?_, ?_, ?_⟩
  · intro hnone
    have hp : loadParameters w args.parametersFile = .ok Parameters.default := by
      rw [hnone]; rfl
    exact ⟨hp, runEvents_usesParams args w _ hp⟩
  · intro f pm hf him
    have hp : loadParameters w args.parametersFile = .ok pm := by
      rw [hf]; simp [loadParameters, withContext, him]
    exact runEvents_usesParams args w pm hp
  · intro f e kp cm hk hc hf him
    have hp : loadParameters w args.parametersFile =
        .error (ErrCtx.failedLoadParameters, e) := by
      rw [hf]; simp [loadParameters, withContext, him]
    have hr : run args w = .error (ErrCtx.failedLoadParameters, e) := by
      unfold run; rw [hk, hc, hp]; rfl
    exact ⟨hr, by rw [hr]; rfl⟩

theorem run_parameters_optional_witness :
    primaryArgsNoParams.parametersFile = none ∧
    Event.primarySpawn sampleKeyPair sampleCommittee Parameters.default sampleStore 1 2
      ∈ runEvents (run primaryArgsNoParams goodWorld) ∧
    eventUsesParams Parameters.default
      (Event.primarySpawn sampleKeyPair sampleCommittee Parameters.default sampleStore 1 2) :=
  ⟨rfl, by decide,
    ((run_parameters_optional primaryArgsNoParams goodWorld).1 rfl).2 _ (by decide)⟩

/-- Claim C5 (counterexample): the capacities of the channels the node
creates are NOT taken from the loaded `Parameters`.  At this concrete
input the parameters file loads successfully with a channel-capacity knob
of 7, yet all three channels created by `run` have capacity
`CHANNEL_CAPACITY` = 1000, and no channel with capacity 7 is created. -/
theorem channel_capacity_not_from_parameters :
    loadParameters goodWorld primaryArgs.parametersFile = Except.ok sampleParameters ∧
    sampleParameters.channel_capacity = 7 ∧
    runEvents (run primaryArgs goodWorld) =
      [.createChannel 0 1000,
       .createChannel 1 1000,
       .createChannel 2 1000,
       .primarySpawn sampleKeyPair sampleCommittee sampleParameters sampleStore 1 2,
       .consensusSpawn sampleCommittee sampleParameters.gc_depth 1 2 0] ∧
    Event.createChannel 0 sampleParameters.channel_capacity
      ∉ runEvents (run primaryArgs goodWorld) ∧
    Event.createChannel 1 sampleParameters.channel_capacity
      ∉ runEvents (run primaryArgs goodWorld) ∧
    Event.createChannel 2 sampleParameters.channel_capacity
      ∉ runEvents (run primaryArgs goodWorld) := by
  refine ⟨rfl, rfl, rfl, by decide, by decide, by decide⟩

/-- Claim C5 (amended): the capacity of every channel `run` creates is
the fixed module constant `CHANNEL_CAPACITY`, independent of the loaded
`Parameters`. -/
theorem run_channel_capacity_constant (args : RunArgs) (w : World) :
    ∀ ch cap, Event.createChannel ch cap ∈ runEvents (run args w) →
      cap = CHANNEL_CAPACITY := by
  intro ch cap hmem
  rcases run_total args w with ⟨er, hr⟩ | ⟨kp, cm, pm, st, _, _, _, _, hcase⟩
  · rw [hr] at hmem
    simp [runEvents] at hmem
  · rcases hcase with ⟨_, hr⟩ | ⟨idArg, tf, wid, tkp, _, _, _, hr⟩
    · rw [hr] at hmem
      simp [runEvents, primaryPost] at hmem
      rcases hmem with ⟨_, rfl⟩ | ⟨_, rfl⟩ | ⟨_, rfl⟩ <;> rfl
    · rw [hr] at hmem
      simp [runEvents, workerPost] at hmem
      rcases hmem with ⟨_, rfl⟩
      rfl

theorem run_channel_capacity_constant_witness :
    Event.createChannel 1 1000 ∈ runEvents (run primaryArgs goodWorld) ∧
    1000 = CHANNEL_CAPACITY :=
  ⟨by decide, run_channel_capacity_constant primaryArgs goodWorld 1 1000 (by decide)⟩

/-- Claim C6: every channel created by `run` — committed-output (channel
0), new-certificates (channel 1) and feedback (channel 2) — is created
with the same finite capacity `CHANNEL_CAPACITY` = 1000 (the bounded
`tokio::sync::mpsc` FIFO constructor `channel(CHANNEL_CAPACITY)`), so no
channel created in `run` is unbounded. -/
theorem run_channels_bounded (args : RunArgs) (w : World) :
    CHANNEL_CAPACITY = 1000 ∧
    ∀ ch cap, Event.createChannel ch cap ∈ runEvents (run args w) →
      cap = 1000 ∧ 0 < cap := by
  refine ⟨rfl, ?_⟩
  intro ch cap hmem
  rcases run_total args w with ⟨er, hr⟩ | ⟨kp, cm, pm, st, _, _, _, _, hcase⟩
  · rw [hr] at hmem
    simp [runEvents] at hmem
  · rcases hcase with ⟨_, hr⟩ | ⟨idArg, tf, wid, tkp, _, _, _, hr⟩
    · rw [hr] at hmem
      simp [runEvents, primaryPost] at hmem
      rcases hmem with ⟨_, rfl⟩ | ⟨_, rfl⟩ | ⟨_, rfl⟩ <;> exact ⟨rfl, by decide⟩
    · rw [hr] at hmem
      simp [runEvents, workerPost] at hmem
      rcases hmem with ⟨_, rfl⟩
      exact ⟨rfl, by decide⟩

theorem run_channels_bounded_witness :
    Event.createChannel 2 1000 ∈ runEvents (run primaryArgs goodWorld) ∧
    (1000 = 1000 ∧ 0 < 1000) :=
  ⟨by decide, (run_channels_bounded primaryArgs goodWorld).2 2 1000 (by decide)⟩

/-- Claim C8: in worker mode the sender of the committed-output channel
(channel 0) is neither passed to the spawned Worker nor dropped by `run`
(`txOutputHolder = runLocal`): no event other than the creation of
channel 0 even mentions channel 0, so `analyze` can never receive `None`;
`run` blocks forever in `analyze` for every possible external behavior
and the trailing `unreachable!()` is never reached. -/
theorem run_worker_blocks (args : RunArgs) (w : World) (idArg tf : String)
    (kp : KeyPair) (cm : Committee) (pm : Parameters) (st : Store)
    (wid : Nat) (tkp : ThresholdKeyPair)
    (hm : args.mode = Mode.worker idArg tf)
    (hk : w.importKeyPair args.keyFile = .ok kp)
    (hc : w.importCommittee args.committeeFile = .ok cm)
    (hp : loadParameters w args.parametersFile = .ok pm)
    (hs : w.newStore args.storePath = .ok st)
    (hid : w.parseWorkerId idArg = .ok wid)
    (ht : w.importThresholdKeyPair tf = .ok tkp) :
    run args w = .neverReturns
      { events :=
          [.createChannel 0 CHANNEL_CAPACITY,
           .workerSpawn kp.name wid tkp cm pm st],
        txOutputHolder := .runLocal,
        analyzedChannel := 0 } ∧
    (∀ ev ∈ runEvents (run args w), eventMentionsChannel 0 ev →
       ev = Event.createChannel 0 CHANNEL_CAPACITY) ∧
    (∀ externCloses, runBehavior args w externCloses = Behavior.blockForever) := by
  have hr := run_eq_worker args w idArg tf kp cm pm st wid tkp hm hk hc hp hs hid ht
  refine ⟨hr, ?_, ?_⟩
  · intro ev hev hch
    rw [hr] at hev
    simp [runEvents, workerPost] at hev
    rcases hev with rfl | rfl
    · rfl
    · simp [eventMentionsChannel] at hch
  · intro externCloses
    unfold runBehavior
    rw [hr]
    rfl

theorem run_worker_blocks_witness :
    workerArgs.mode = Mode.worker "4" "t" ∧
    goodWorld.parseWorkerId "4" = Except.ok 4 ∧
    runBehavior workerArgs goodWorld true = Behavior.blockForever :=
  ⟨rfl, rfl,
    (run_worker_blocks workerArgs goodWorld "4" "t" sampleKeyPair sampleCommittee
      sampleParameters sampleStore 4 sampleTkp rfl rfl rfl rfl rfl rfl rfl).2.2 true⟩

/-- Claim C9: on every execution path `run` never returns `Ok`: it either
returns an early bootstrap error, or — on every path reaching a spawn
call — blocks forever draining the committed-output channel or panics at
the trailing `unreachable!()` once `analyze` returns; a normal successful
return after spawning is impossible. -/
theorem run_never_returns_ok (args : RunArgs) (w : World) (externCloses : Bool) :
    run args w ≠ RunResult.ok ∧
    runBehavior args w externCloses ≠ Behavior.returnedOk ∧
    (∀ post, run args w = .neverReturns post →
       runBehavior args w externCloses = Behavior.blockForever ∨
       runBehavior args w externCloses = Behavior.panicked) := by
  rcases run_total args w with ⟨er, hr⟩ | ⟨kp, cm, pm, st, _, _, _, _, hcase⟩
  · refine ⟨by rw [hr]; simp, ?_, ?_⟩
    · unfold runBehavior
      rw [hr]
      simp
    · intro post hpost
      rw [hr] at hpost
      simp at hpost
  · have hnr : ∃ post, run args w = .neverReturns post := by
      rcases hcase with ⟨_, h⟩ | ⟨_, _, _, _, _, _, _, h⟩
      exacts [⟨_, h⟩, ⟨_, h⟩]
    rcases hnr with ⟨post, hr⟩
    refine ⟨by rw [hr]; simp, ?_, ?_⟩
    · unfold runBehavior
      rw [hr]
      cases hpo : post.txOutputHolder <;> cases externCloses <;>
        simp [tailOutcome, hpo]
    · intro post2 _
      unfold runBehavior
      rw [hr]
      cases hpo : post.txOutputHolder <;> cases externCloses <;>
        simp [tailOutcome, hpo]

theorem run_never_returns_ok_witness :
    run workerArgs goodWorld ≠ RunResult.ok ∧
    (runBehavior workerArgs goodWorld true = Behavior.blockForever ∨
     runBehavior workerArgs goodWorld true = Behavior.panicked) :=
  ⟨(run_never_returns_ok workerArgs goodWorld true).1,
   (run_never_returns_ok workerArgs goodWorld true).2.2
     (workerPost sampleKeyPair 4 sampleTkp sampleCommittee sampleParameters sampleStore)
     rfl⟩

/-- Claim C10: the `generate_threshold_publickey` subcommand derives its
exported key from `ThresholdKeyPair::new(threshold, 0, seed)`; the
derivation is a pure function of the `--threshold` and `--seed` arguments
(hence deterministic across invocations), and the exported group public
key equals the `pk_set` public key of any key share produced by
`generate_threshold_keypair` with the same threshold and seed, for every
choice of `--node_index`. -/
theorem threshold_publickey_deterministic (t s i j : Nat) :
    generateThresholdPublickeyCmd t s =
      (ThresholdKeyPair.new t 0 s).pk_set.public_key ∧
    (generateThresholdKeypairCmd t i s).pk_set.public_key =
      generateThresholdPublickeyCmd t s ∧
    (generateThresholdKeypairCmd t i s).pk_set.public_key =
      (generateThresholdKeypairCmd t j s).pk_set.public_key :=
  ⟨rfl, rfl, rfl⟩

/-!
Modelled from the spec: the Consensus ordering engine (`consensus` crate)
is not under `src/`.  The definitions below model the ordering walk of
spec section 4.3: upon committing a leader certificate `L`, walk backward
from `L` through parent links, collect every reachable certificate not
yet emitted, and emit the collected set ascending by round with a
digest-lexicographic tie-break inside a round; the stream over successive
leaders threads the emitted set forward, so a certificate already emitted
via an earlier leader's history is skipped.
-/

/-- Look a certificate up by digest in the local DAG view. -/
def lookupCert (dag : List Certificate) (d : Nat) : Option Certificate :=
  dag.find? (fun c => c.digest == d)

/-- Modelled from the spec: a causally complete local DAG view.  Digests
are unique, and every cited parent is admitted with round exactly one
less than its child (spec: a certificate is admitted only once all its
cited parents are admitted; parents live in round r-1; genesis round 0
cites no parents — a round-0 certificate with a parent would need a
parent at round -1, which this condition excludes). -/
def Wellformed (dag : List Certificate) : Prop :=
  (dag.map Certificate.digest).Nodup ∧
  ∀ c ∈ dag, ∀ p ∈ c.parents, ∃ cp ∈ dag, cp.digest = p ∧ cp.round + 1 = c.round

/-- Backward reachability through parent links with a step budget:
`descends dag fuel dL dc` holds when the certificate with digest `dc` is
reachable from digest `dL` by following at most `fuel` parent links.  In
a well-formed DAG every parent step descends one round, so `L.round`
steps suffice to reach every ancestor of `L`. -/
def descends (dag : List Certificate) : Nat → Nat → Nat → Bool
  | 0, dL, dc => dL == dc
  | fuel + 1, dL, dc =>
      dL == dc ||
      match lookupCert dag dL with
      | some c => c.parents.any (fun p => descends dag fuel p dc)
      | none => false

/-- Insertion into a digest-sorted list (the deterministic same-round
tie-break of the ordering walk). -/
def insertByDigest (c : Certificate) : List Certificate → List Certificate
  | [] => [c]
  | x :: xs =>
      if c.digest ≤ x.digest then c :: x :: xs else x :: insertByDigest c xs

/-- Sort a list of certificates by digest (insertion sort). -/
def sortByDigest : List Certificate → List Certificate
  | [] => []
  | x :: xs => insertByDigest x (sortByDigest xs)

/-- The round-`r` slice of one leader commit: every certificate of round
`r` reachable backward from the leader `L` and not yet emitted, in
digest order. -/
def bucket (dag : List Certificate) (L : Certificate) (emitted : List Nat)
    (r : Nat) : List Certificate :=
  sortByDigest (dag.filter (fun c =>
    descends dag L.round L.digest c.digest && c.round == r &&
      !(emitted.contains c.digest)))

/-- Emit the collected certificates of one leader commit ascending by
round: starting at round `r` with `k` rounds to go, emit the round-`r`
slice, then recurse with the emitted set extended. -/
def commitRounds (dag : List Certificate) (L : Certificate) :
    Nat → Nat → List Nat → List Certificate
  | _, 0, _ => []
  | r, k + 1, emitted =>
      let b := bucket dag L emitted r
      b ++ commitRounds dag L (r + 1) k (emitted ++ b.map Certificate.digest)

/-- One leader commit: emit rounds 0 through `L.round` of the leader's
causal history that are not yet emitted, ascending by round with a
digest tie-break (the leader itself is the unique round-`L.round`
certificate of its own history, hence emitted last). -/
def commitLeader (dag : List Certificate) (L : Certificate)
    (emitted : List Nat) : List Certificate :=
  commitRounds dag L 0 (L.round + 1) emitted

/-- The committed output stream over a sequence of committed leaders,
threading the emitted set so nothing is emitted twice. -/
def commitStream (dag : List Certificate) :
    List Certificate → List Nat → List Certificate
  | [], _ => []
  | L :: Ls, emitted =>
      let wave := commitLeader dag L emitted
      wave ++ commitStream dag Ls (emitted ++ wave.map Certificate.digest)

/-- Causal order of an output segment relative to an already-emitted set:
walking the segment left to right, every certificate only cites parents
whose digests were emitted before it (initially `emitted`, extended with
each emitted certificate). -/
def CausalFrom (emitted : List Nat) : List Certificate → Prop
  | [] => True
  | c :: rest =>
      (∀ p ∈ c.parents, p ∈ emitted) ∧
      CausalFrom (emitted ++ [c.digest]) rest

/-- All reachable certificates of rounds below `r` are already emitted. -/
def Covered (dag : List Certificate) (L : Certificate) (r : Nat)
    (emitted : List Nat) : Prop :=
  ∀ c ∈ dag, descends dag L.round L.digest c.digest = true → c.round < r →
    c.digest ∈ emitted

lemma lookupCert_some (dag : List Certificate) (d : Nat) (c : Certificate)
    (h : lookupCert dag d = some c) : c ∈ dag ∧ c.digest = d := by
  refine ⟨List.mem_of_find?_eq_some h, ?_⟩
  have := List.find?_some h
  simpa using this

lemma lookupCert_of_mem (dag : List Certificate)
    (hnd : (dag.map Certificate.digest).Nodup) (c : Certificate) (hc : c ∈ dag) :
    lookupCert dag c.digest = some c := by
  induction dag with
  | nil => cases hc
  | cons x xs ih =>
      rcases List.mem_cons.mp hc with rfl | hmem
      · simp [lookupCert]
      · have hx : x.digest ∉ xs.map Certificate.digest :=
          (List.nodup_cons.mp (by simpa using hnd)).1
        have hne : (x.digest == c.digest) = false := by
          simp only [beq_eq_false_iff_ne, ne_eq]
          intro he
          exact hx (he ▸ List.mem_map_of_mem Certificate.digest hmem)
        have htl := ih (List.nodup_cons.mp (by simpa using hnd)).2 hmem
        simp only [lookupCert, List.find?] at htl ⊢
        rw [hne]
        exact htl

lemma descends_refl (dag : List Certificate) (fuel d : Nat) :
    descends dag fuel d d = true := by
  cases fuel <;> simp [descends]

lemma descends_step (dag : List Certificate) (fuel dL dc q : Nat)
    (c : Certificate) (hl : lookupCert dag dL = some c) (hq : q ∈ c.parents)
    (hd : descends dag fuel q dc = true) :
    descends dag (fuel + 1) dL dc = true := by
  simp only [descends]
  rw [hl]
  simp only [Bool.or_eq_true, beq_iff_eq, List.any_eq_true]
  exact .inr ⟨q, hq, hd⟩

lemma descends_succ_elim (dag : List Certificate) (fuel dL dc : Nat)
    (h : descends dag (fuel + 1) dL dc = true) :
    dL = dc ∨ ∃ c, lookupCert dag dL = some c ∧
      ∃ q ∈ c.parents, descends dag fuel q dc = true := by
  rcases hl : lookupCert dag dL with _ | c
  · simp only [descends] at h
    rw [hl] at h
    simp only [Bool.or_false, beq_iff_eq] at h
    exact .inl h
  · simp only [descends] at h
    rw [hl] at h
    simp only [Bool.or_eq_true, beq_iff_eq, List.any_eq_true] at h
    rcases h with h | ⟨q, hq, hd⟩
    · exact .inl h
    · exact .inr ⟨c, rfl, q, hq, hd⟩

lemma descends_mono (dag : List Certificate) :
    ∀ {m n a b : Nat}, m ≤ n →
      descends dag m a b = true → descends dag n a b = true := by
  intro m n
  induction n generalizing m with
  | zero =>
      intro a b hmn h
      have hm : m = 0 := Nat.le_zero.mp hmn
      subst hm
      exact h
  | succ n ih =>
      intro a b hmn h
      cases m with
      | zero =>
          have hab : a = b := by simpa [descends] using h
          subst hab
          exact descends_refl dag (n + 1) a
      | succ m =>
          rcases descends_succ_elim dag m a b h with h | ⟨c, hl, q, hq, hd⟩
          · subst h
            exact descends_refl dag (n + 1) a
          · exact descends_step dag n a b q c hl hq
              (ih (Nat.succ_le_succ_iff.mp hmn) hd)

lemma descends_round_le (dag : List Certificate) (hwf : Wellformed dag) :
    ∀ (fuel a b : Nat) (ca cb : Certificate),
      lookupCert dag a = some ca → lookupCert dag b = some cb →
      descends dag fuel a b = true → cb.round ≤ ca.round := by
  intro fuel
  induction fuel with
  | zero =>
      intro a b ca cb ha hb h
      have hab : a = b := by simpa [descends] using h
      subst hab
      have := Option.some.inj (ha.symm.trans hb)
      subst this
      exact le_refl _
  | succ fuel ih =>
      intro a b ca cb ha hb h
      rcases descends_succ_elim dag fuel a b h with h | ⟨c, hl, q, hq, hd⟩
      · subst h
        have := Option.some.inj (ha.symm.trans hb)
        subst this
        exact le_refl _
      · have hca : c = ca := Option.some.inj (hl.symm.trans ha)
        subst hca
        obtain ⟨cp, hcpmem, hcpd, hcpr⟩ :=
          hwf.2 c (lookupCert_some dag a c hl).1 q hq
        have hlq : lookupCert dag q = some cp := by
          rw [← hcpd]
          exact lookupCert_of_mem dag hwf.1 cp hcpmem
        have := ih q b cp cb hlq hb hd
        omega

lemma descends_min_fuel (dag : List Certificate) (hwf : Wellformed dag) :
    ∀ (fuel a b : Nat) (ca cb : Certificate),
      lookupCert dag a = some ca → lookupCert dag b = some cb →
      descends dag fuel a b = true →
      descends dag (ca.round - cb.round) a b = true := by
  intro fuel
  induction fuel with
  | zero =>
      intro a b ca cb ha hb h
      have hab : a = b := by simpa [descends] using h
      subst hab
      exact descends_refl dag _ a
  | succ fuel ih =>
      intro a b ca cb ha hb h
      rcases descends_succ_elim dag fuel a b h with h | ⟨c, hl, q, hq, hd⟩
      · subst h
        exact descends_refl dag _ a
      · have hca : c = ca := Option.some.inj (hl.symm.trans ha)
        subst hca
        obtain ⟨cp, hcpmem, hcpd, hcpr⟩ :=
          hwf.2 c (lookupCert_some dag a c hl).1 q hq
        have hlq : lookupCert dag q = some cp := by
          rw [← hcpd]
          exact lookupCert_of_mem dag hwf.1 cp hcpmem
        have hmin := ih q b cp cb hlq hb hd
        have hble : cb.round ≤ cp.round :=
          descends_round_le dag hwf fuel q b cp cb hlq hb hd
        have hstep : descends dag (cp.round - cb.round + 1) a b = true :=
          descends_step dag (cp.round - cb.round) a b q c hl hq hmin
        exact descends_mono dag (by omega) hstep

lemma descends_extend (dag : List Certificate) :
    ∀ (fuel a b : Nat) (cb : Certificate) (p : Nat),
      descends dag fuel a b = true → lookupCert dag b = some cb →
      p ∈ cb.parents → descends dag (fuel + 1) a p = true := by
  intro fuel
  induction fuel with
  | zero =>
      intro a b cb p h hb hp
      have hab : a = b := by simpa [descends] using h
      subst hab
      exact descends_step dag 0 a p p cb hb hp (descends_refl dag 0 p)
  | succ fuel ih =>
      intro a b cb p h hb hp
      rcases descends_succ_elim dag fuel a b h with h | ⟨c, hl, q, hq, hd⟩
      · subst h
        exact descends_step dag (fuel + 1) a p p cb hb hp
          (descends_refl dag (fuel + 1) p)
      · exact descends_step dag (fuel + 1) a p q c hl hq (ih q b cb p hd hb hp)

lemma descends_parent (dag : List Certificate) (L : Certificate)
    (hwf : Wellformed dag) (hL : L ∈ dag) (c : Certificate) (hc : c ∈ dag)
    (hdesc : descends dag L.round L.digest c.digest = true)
    (p : Nat) (hp : p ∈ c.parents) :
    descends dag L.round L.digest p = true ∧
    ∃ cp ∈ dag, cp.digest = p ∧ cp.round + 1 = c.round := by
  obtain ⟨cp, hcpmem, hcpd, hcpr⟩ := hwf.2 c hc p hp
  have hlL : lookupCert dag L.digest = some L := lookupCert_of_mem dag hwf.1 L hL
  have hlc : lookupCert dag c.digest = some c := lookupCert_of_mem dag hwf.1 c hc
  have hcle : c.round ≤ L.round :=
    descends_round_le dag hwf L.round L.digest c.digest L c hlL hlc hdesc
  have hmin : descends dag (L.round - c.round) L.digest c.digest = true :=
    descends_min_fuel dag hwf L.round L.digest c.digest L c hlL hlc hdesc
  have hext : descends dag (L.round - c.round + 1) L.digest p = true :=
    descends_extend dag (L.round - c.round) L.digest c.digest c p hmin hlc hp
  exact ⟨descends_mono dag (by omega) hext, cp, hcpmem, hcpd, hcpr⟩

lemma mem_insertByDigest (a c : Certificate) (l : List Certificate) :
    a ∈ insertByDigest c l ↔ a = c ∨ a ∈ l := by
  induction l with
  | nil => simp [insertByDigest]
  | cons x xs ih =>
      by_cases h : c.digest ≤ x.digest <;> simp [insertByDigest, h, ih] <;> tauto

lemma mem_sortByDigest (a : Certificate) (l : List Certificate) :
    a ∈ sortByDigest l ↔ a ∈ l := by
  induction l with
  | nil => simp [sortByDigest]
  | cons x xs ih => simp [sortByDigest, mem_insertByDigest, ih]

lemma mem_bucket (dag : List Certificate) (L : Certificate) (emitted : List Nat)
    (r : Nat) (c : Certificate) :
    c ∈ bucket dag L emitted r ↔
      c ∈ dag ∧ descends dag L.round L.digest c.digest = true ∧
      c.round = r ∧ c.digest ∉ emitted := by
  simp [bucket, mem_sortByDigest, List.mem_filter, and_assoc]

lemma bucket_parents (dag : List Certificate) (L : Certificate)
    (emitted : List Nat) (r : Nat) (hwf : Wellformed dag) (hL : L ∈ dag)
    (hcov : Covered dag L r emitted) :
    ∀ c ∈ bucket dag L emitted r, ∀ p ∈ c.parents, p ∈ emitted := by
  intro c hc p hp
  rw [mem_bucket] at hc
  obtain ⟨hcd, hdesc, hcr, _⟩ := hc
  obtain ⟨hdp, cp, hcpmem, hcpd, hcpr⟩ :=
    descends_parent dag L hwf hL c hcd hdesc p hp
  have := hcov cp hcpmem (by rw [hcpd]; exact hdp) (by omega)
  rwa [hcpd] at this

lemma covered_zero (dag : List Certificate) (L : Certificate)
    (emitted : List Nat) : Covered dag L 0 emitted := by
  intro c _ _ h
  omega

lemma covered_step (dag : List Certificate) (L : Certificate)
    (emitted : List Nat) (r : Nat) (hcov : Covered dag L r emitted) :
    Covered dag L (r + 1)
      (emitted ++ (bucket dag L emitted r).map Certificate.digest) := by
  intro c hc hdesc hr
  by_cases hlt : c.round < r
  · exact List.mem_append.mpr (.inl (hcov c hc hdesc hlt))
  · have heq : c.round = r := by omega
    by_cases hem : c.digest ∈ emitted
    · exact List.mem_append.mpr (.inl hem)
    · refine List.mem_append.mpr (.inr ?_)
      exact List.mem_map_of_mem Certificate.digest
        ((mem_bucket dag L emitted r c).mpr ⟨hc, hdesc, heq, hem⟩)

lemma causalFrom_nil (emitted : List Nat) : CausalFrom emitted [] :=
  trivial

lemma causalFrom_append (xs : List Certificate) :
    ∀ (emitted : List Nat) (ys : List Certificate),
      CausalFrom emitted xs →
      CausalFrom (emitted ++ xs.map Certificate.digest) ys →
      CausalFrom emitted (xs ++ ys) := by
  induction xs with
  | nil =>
      intro emitted ys _ hys
      simpa using hys
  | cons c xs ih =>
      intro emitted ys hxs hys
      obtain ⟨hc, hrest⟩ := hxs
      refine ⟨hc, ih (emitted ++ [c.digest]) ys hrest ?_⟩
      have heq : emitted ++ [c.digest] ++ xs.map Certificate.digest =
          emitted ++ (c :: xs).map Certificate.digest := by
        simp
      rw [heq]
      exact hys

lemma causalFrom_of_block (b : List Certificate) :
    ∀ emitted : List Nat, (∀ c ∈ b, ∀ p ∈ c.parents, p ∈ emitted) →
      CausalFrom emitted b := by
  induction b with
  | nil =>
      intro emitted _
      trivial
  | cons c xs ih =>
      intro emitted h
      refine ⟨h c (by simp), ih _ ?_⟩
      intro c2 hc2 p hp
      exact List.mem_append.mpr (.inl (h c2 (by simp [hc2]) p hp))

lemma causalFrom_index (out : List Certificate) :
    ∀ emitted : List Nat, CausalFrom emitted out →
      ∀ i : Fin out.length, ∀ p ∈ (out.get i).parents,
        p ∈ emitted ∨
        ∃ j : Fin out.length, (j : Nat) < (i : Nat) ∧ (out.get j).digest = p := by
  induction out with
  | nil =>
      intro emitted _ i
      exact absurd i.isLt (by simp)
  | cons c rest ih =>
      intro emitted h i p hp
      obtain ⟨hc, hrest⟩ := h
      rcases i with ⟨iv, hi⟩
      cases iv with
      | zero =>
          exact .inl (hc p hp)
      | succ k =>
          have hk : k < rest.length := Nat.lt_of_succ_lt_succ hi
          have hp2 : p ∈ (rest.get ⟨k, hk⟩).parents := hp
          rcases ih (emitted ++ [c.digest]) hrest ⟨k, hk⟩ p hp2 with
            hmem | ⟨j, hj, hdj⟩
          · rcases List.mem_append.mp hmem with hmem | hmem
            · exact .inl hmem
            · have hpd : p = c.digest := by simpa using hmem
              refine .inr ⟨⟨0, by simp⟩, ?_, ?_⟩
              · show 0 < k + 1
                omega
              · show c.digest = p
                exact hpd.symm
          · have hjk : (j : Nat) < k := hj
            refine .inr ⟨⟨(j : Nat) + 1, ?_⟩, ?_, ?_⟩
            · show (j : Nat) + 1 < rest.length + 1
              have := j.isLt
              omega
            · show (j : Nat) + 1 < k + 1
              omega
            · show (rest.get ⟨(j : Nat), j.isLt⟩).digest = p
              exact hdj

lemma commitRounds_causal (dag : List Certificate) (L : Certificate)
    (hwf : Wellformed dag) (hL : L ∈ dag) :
    ∀ (k r : Nat) (emitted : List Nat), Covered dag L r emitted →
      CausalFrom emitted (commitRounds dag L r k emitted) := by
  intro k
  induction k with
  | zero =>
      intro r emitted _
      simp only [commitRounds]
      exact causalFrom_nil emitted
  | succ k ih =>
      intro r emitted hcov
      simp only [commitRounds]
      apply causalFrom_append
      · exact causalFrom_of_block (bucket dag L emitted r) emitted
          (bucket_parents dag L emitted r hwf hL hcov)
      · exact ih (r + 1) _ (covered_step dag L emitted r hcov)

lemma commitLeader_causal (dag : List Certificate) (L : Certificate)
    (emitted : List Nat) (hwf : Wellformed dag) (hL : L ∈ dag) :
    CausalFrom emitted (commitLeader dag L emitted) :=
  commitRounds_causal dag L hwf hL (L.round + 1) 0 emitted
    (covered_zero dag L emitted)

lemma commitStream_causal (dag : List Certificate) (hwf : Wellformed dag) :
    ∀ (leaders : List Certificate) (emitted : List Nat),
      (∀ L ∈ leaders, L ∈ dag) →
      CausalFrom emitted (commitStream dag leaders emitted) := by
  intro leaders
  induction leaders with
  | nil =>
      intro emitted _
      simp only [commitStream]
      exact causalFrom_nil emitted
  | cons L Ls ih =>
      intro emitted hl
      simp only [commitStream]
      apply causalFrom_append
      · exact commitLeader_causal dag L emitted hwf (hl L (by simp))
      · exact ih _ (fun L2 h2 => hl L2 (by simp [h2]))

/-- Claim C7: in the committed output stream, no certificate is emitted
before all the certificates it cites as parents have been emitted: for
every position `i` of the stream and every parent digest `p` of the
certificate at `i`, some strictly earlier position `j` carries the
certificate with digest `p`.  The DAG is causally complete and
duplicate-free (`Wellformed`) and the committed leaders belong to it. -/
theorem commitStream_causal_order (dag leaders : List Certificate)
    (hwf : Wellformed dag) (hl : ∀ L ∈ leaders, L ∈ dag) :
    ∀ i : Fin (commitStream dag leaders []).length,
      ∀ p ∈ ((commitStream dag leaders []).get i).parents,
        ∃ j : Fin (commitStream dag leaders []).length,
          (j : Nat) < (i : Nat) ∧
          ((commitStream dag leaders []).get j).digest = p := by
  intro i p hp
  rcases causalFrom_index (commitStream dag leaders []) []
      (commitStream_causal dag hwf leaders [] hl) i p hp with h | h
  · exact absurd h (List.not_mem_nil p)
  · exact h

def witnessDag : List Certificate :=
  [{ round := 0, author := 0, digest := 10, parents := [] },
   { round := 0, author := 1, digest := 11, parents := [] },
   { round := 1, author := 0, digest := 20, parents := [10, 11] }]

def witnessLeaders : List Certificate :=
  [{ round := 1, author := 0, digest := 20, parents := [10, 11] }]

theorem commitStream_causal_order_witness :
    Wellformed witnessDag ∧
    (∀ L ∈ witnessLeaders, L ∈ witnessDag) ∧
    (∀ i : Fin (commitStream witnessDag witnessLeaders []).length,
      ∀ p ∈ ((commitStream witnessDag witnessLeaders []).get i).parents,
        ∃ j : Fin (commitStream witnessDag witnessLeaders []).length,
          (j : Nat) < (i : Nat) ∧
          ((commitStream witnessDag witnessLeaders []).get j).digest = p) :=
  ⟨by unfold Wellformed; decide, by decide,
    commitStream_causal_order witnessDag witnessLeaders
      (by unfold Wellformed; decide) (by decide)⟩

end Narwhal
